import Mathlib

/-!
Shallow embedding of `src/decompose_range_check.rs` from the
halo2-learning-group repository: the decomposed range-check circuit.

The circuit decomposes a value into `RANGE / LOOKUP_RANGE` windows; a
custom gate (declared in `DecomposeRangeCheckConfig::configure`) constrains
the weighted sum of the window cells to equal the value, and a lookup
argument constrains each window cell (multiplied by its selector) to be an
entry of the range table.  The witness side
(`assign_decomposed_values`) computes the window digits with a running
shift-and-mod loop.

Machine integers (`u128`, `usize`) are modelled as `ℕ`; all the shifts and
moduli in the source stay far below 128 bits, so no wraparound is lost.
Field elements of the pasta base field `Fp` are modelled as naturals
reduced mod the pasta prime `P`, and gate polynomials evaluate into `ℤ`
with acceptance meaning the value is `0 mod P`.
-/

namespace DecomposeRangeCheck

/-- `RANGE` from the source: the size of the total range to check. -/
def RANGE : ℕ := 64

/-- `NUM_BITS` from the source: bits per window of the decomposition. -/
def NUM_BITS : ℕ := 3

/-- `LOOKUP_RANGE` from the source: the size of the lookup table. -/
def LOOKUP_RANGE : ℕ := 8

/-- The modulus of the pasta `Fp` field used by the tests of the circuit. -/
def P : ℕ := 28948022309329048855892746252171976963363056481941560715954676764349967630337

/-- `F::from` / `F::from_u128`: a machine integer as a field element,
modelled as a natural below `P`. -/
def fFrom (n : ℕ) : ℕ := n % P

/-- `decomposed_parts = RANGE / LOOKUP_RANGE`, the number of windows
(called `W` in the specification). -/
def decomposed_parts : ℕ := RANGE / LOOKUP_RANGE

/-- The halo2 `Expression` AST, restricted to the constructors the circuit
uses.  Advice queries carry the column index (0 = `value`,
1 = `value_decomposed`) and the rotation; selector queries carry the
selector index (0 = `q_decomposed`, 1 = `q_range_check`).  Constants are
the natural numbers the source passes to `F::from`. -/
inductive Expr where
  | Constant (c : ℕ)
  | Selector (s : ℕ)
  | Advice (col : ℕ) (rot : ℤ)
  | Negated (e : Expr)
  | Sum (a b : Expr)
  | Product (a b : Expr)
deriving DecidableEq

/-- Evaluation of an expression in a commutative ring, given the selector
values and the advice cell values (by column and rotation). -/
def eval {F : Type} [CommRing F] (sel : ℕ → F) (adv : ℕ → ℤ → F) : Expr → F
  | .Constant c => (c : F)
  | .Selector s => sel s
  | .Advice col rot => adv col rot
  | .Negated e => - eval sel adv e
  | .Sum a b => eval sel adv a + eval sel adv b
  | .Product a b => eval sel adv a * eval sel adv b

/-- The degree of an expression, as the halo2 `Expression::degree` method computes
it (queried cells and selectors count 1, products add, sums take max). -/
def degree : Expr → ℕ
  | .Constant _ => 0
  | .Selector _ => 1
  | .Advice _ _ => 1
  | .Negated e => degree e
  | .Sum a b => max (degree a) (degree b)
  | .Product a b => degree a + degree b

/-- The advice cells an expression queries, in syntactic order, as
(column, rotation) pairs. -/
def queriedAdvice : Expr → List (ℕ × ℤ)
  | .Constant _ => []
  | .Selector _ => []
  | .Advice col rot => [(col, rot)]
  | .Negated e => queriedAdvice e
  | .Sum a b => queriedAdvice a ++ queriedAdvice b
  | .Product a b => queriedAdvice a ++ queriedAdvice b

/-- The two `assert!` guards at the start of the `decomposed_check`
closure in `configure` (they run while the gate is being built, i.e. at
configuration time). -/
def decomposed_check_asserts (parts : ℕ) : Except String Unit :=
  if ¬ parts > 0 then .error "Empty value!"
  else if ¬ NUM_BITS * parts < 64 then .error "Value doesn\x27t fit in bits!"
  else .ok ()

/-- The `decomposed_check` closure from `configure`: folds
`expr + decomposed_values[i] * F::from(1 << (NUM_BITS * i))` over the
windows starting from the constant 0, then subtracts `value`. -/
def decomposed_check (parts : ℕ) (value : Expr) (decomposed_values : List Expr) :
    Expr :=
  .Sum
    ((List.range parts).foldl
      (fun expr i =>
        .Sum expr (.Product (decomposed_values.getD i (.Constant 0))
          (.Constant (1 <<< (NUM_BITS * i)))))
      (.Constant 0))
    (.Negated value)

/-- The gate identity built in `configure`: `decomposed_check` applied to
the `value` advice query at the current row and the `value_decomposed`
advice queries at rotations `0 .. decomposed_parts - 1`. -/
def gateIdentity : Expr :=
  decomposed_check decomposed_parts (.Advice 0 0)
    ((List.range decomposed_parts).map (fun i => .Advice 1 (i : ℤ)))

/-- The full "decompose" gate polynomial: `Constraints::with_selector`
multiplies the identity by the `q_decomposed` selector query. -/
def decomposeGate : Expr := .Product (.Selector 0) gateIdentity

/-- The lookup input expression registered in `configure`:
`q_range_check * value_decomposed@cur`. -/
def lookupExpr : Expr := .Product (.Selector 1) (.Advice 1 0)

/-- `configure`, reduced to what the claims need: running the assertions
of the gate builder and returning the registered lookup input and gate
polynomial. -/
def configureGates : Except String (Expr × Expr) :=
  match decomposed_check_asserts decomposed_parts with
  | .ok _ => .ok (lookupExpr, decomposeGate)
  | .error e => .error e

/-- Modelled from the spec: the `table` module of the repository
(`RangeTableConfig`), referenced by `decompose_range_check.rs`, is not
among the source files.  Section 4.1 of the specification says the table
builder "produces a fixed column of LOOKUP_RANGE distinct entries
{0,…,LOOKUP_RANGE−1}", loaded as field elements. -/
def rangeTable : List ℕ := (List.range LOOKUP_RANGE).map fFrom

/-- The digit loop of `assign_decomposed_values`: starting at window
`off` with running value `z`, for `n` more windows take
`z % (1 << (off * NUM_BITS))` as the digit and shift `z` right by
`off * NUM_BITS`. -/
def decomposeFrom : ℕ → ℕ → ℕ → List ℕ
  | _, 0, _ => []
  | off, n + 1, z =>
      (z % (1 <<< (off * NUM_BITS))) :: decomposeFrom (off + 1) n (z >>> (off * NUM_BITS))

/-- The digits `assign_decomposed_values` computes for a value, window 0
first. -/
def decompose (v : ℕ) : List ℕ := decomposeFrom 0 decomposed_parts v

/-- The region body of `assign_decomposed_values`, with its layouter
effects made explicit: at each window it enables `q_range_check` at the
row of that window and assigns the digit (as a field element) to the
`value_decomposed` cell at that row; any failing step would abort the
whole region through `?`.  The substrate calls (`enable`,
`assign_advice`) cannot fail here, so no error is ever produced. -/
def assignRegionLoop : ℕ → ℕ → ℕ → Except Unit (List ℕ × List (ℕ × ℕ))
  | _, 0, _ => .ok ([], [])
  | off, n + 1, z =>
      match assignRegionLoop (off + 1) n (z >>> (off * NUM_BITS)) with
      | .ok (ens, cells) =>
          .ok (off :: ens, (off, fFrom (z % (1 <<< (off * NUM_BITS)))) :: cells)
      | .error e => .error e

/-- `assign_decomposed_values`: runs the region loop over all
`decomposed_parts` windows and returns `Ok(true)`, reporting the selector
enables and the cell writes it performed. -/
def assign_decomposed_values (v : ℕ) :
    Except Unit (List ℕ × List (ℕ × ℕ) × Bool) :=
  match assignRegionLoop 0 decomposed_parts v with
  | .ok (ens, cells) => .ok (ens, cells, true)
  | .error e => .error e

/-- The advice assignment `synthesize` produces for input `v`: column 0
(`value`) holds `F::from_u128(v)` at the anchor row, column 1
(`value_decomposed`) holds the assigned digit at rotations
`0 .. decomposed_parts - 1` from the anchor. -/
def adv (v : ℕ) (col : ℕ) (rot : ℤ) : ℤ :=
  if col = 0 ∧ rot = 0 then (fFrom v : ℤ)
  else if col = 1 ∧ 0 ≤ rot ∧ rot < (decomposed_parts : ℤ) then
    (fFrom ((decompose v).getD rot.toNat 0) : ℤ)
  else 0

/-- The gate polynomial evaluated on the assignment for `v`, at the
anchor row where `q_decomposed` is enabled. -/
def gateValue (v : ℕ) : ℤ := eval (fun _ => 1) (adv v) decomposeGate

/-- The gate accepts iff its polynomial vanishes in the field. -/
def gateOk (v : ℕ) : Bool := decide (gateValue v % (P : ℤ) = 0)

/-- The lookup input expression evaluated at digit row `r` (where
`q_range_check` is enabled by the assigner). -/
def lookupInput (v : ℕ) (r : ℕ) : ℤ :=
  eval (fun _ => 1) (fun col rot => adv v col (rot + (r : ℤ))) lookupExpr

/-- All the enabled lookup rows succeed: each looked-up value is an entry
of the range table. -/
def lookupOk (v : ℕ) : Bool :=
  (List.range decomposed_parts).all (fun r => decide ((lookupInput v r).toNat ∈ rangeTable))

/-- The check the circuit performs on a value: every gate identity vanishes and
every lookup succeeds (the operation the spec calls check). -/
def check (v : ℕ) : Bool := gateOk v && lookupOk v

/-- The lookup input expression evaluated with selector value `q` on every
selector and `d` in every advice cell (the only cells `lookupExpr` reads
are the `q_range_check` selector and the digit cell at the current row). -/
def lookupInputAt (q d : ℤ) : ℤ := eval (fun _ => q) (fun _ _ => d) lookupExpr

/-- The digit formula prescribed by the specification (section 4.3):
`digit_i = floor(v / LOOKUP_RANGE^i) mod LOOKUP_RANGE`, the standard
positional base-`LOOKUP_RANGE` decomposition.  Stated here only to be
compared with the digits the source computes. -/
def specDigit (v i : ℕ) : ℕ := v / LOOKUP_RANGE ^ i % LOOKUP_RANGE

/-- Recomposition with the weights the gate uses:
`recompose ds = Σ_i ds_i · LOOKUP_RANGE^i`. -/
def recompose : List ℕ → ℕ
  | [] => 0
  | d :: ds => d + LOOKUP_RANGE * recompose ds

/-- The region loop enables the selector on rows `off .. off+n-1` and
writes exactly the cells for those rows, holding the field encodings of
the digits the decomposition loop computes; it never errors. -/
theorem assignRegionLoop_eq (n : ℕ) :
    ∀ off z : ℕ,
      assignRegionLoop off n z =
        .ok (List.range' off n,
          (List.range' off n).zip ((decomposeFrom off n z).map fFrom)) := by
  induction n with
  | zero =>
      intro off z
      simp [assignRegionLoop]
  | succ n ih =>
      intro off z
      rw [assignRegionLoop, ih (off + 1) (z >>> (off * NUM_BITS))]
      simp [decomposeFrom, List.range'_succ]

/-- C1: the claim says every `v` with `0 ≤ v < RANGE` is accepted by the
check (in particular `v = 0` and `v = RANGE - 1`).  On the code this
fails: `v = 0` is accepted, but `v = 1` and the boundary `v = RANGE - 1 = 63`
are rejected, because the digits the assigner writes do not satisfy the
recomposition gate. -/
theorem claim_c1_in_range_values_rejected :
    check 0 = true ∧ check 1 = false ∧ check 63 = false ∧
    1 < RANGE ∧ 63 = RANGE - 1 := by decide

/-- C2: the claim says the assigner writes
`digit_i = floor(v / LOOKUP_RANGE^i) mod LOOKUP_RANGE`.  On the code this
fails already at window 0 of `v = 1` (the code writes `1 % 1 = 0`, the
claim prescribes `1`), and at window 1 of `v = 8` (the code writes
`8 % 8 = 0`, the claim prescribes `1`). -/
theorem claim_c2_digit_formula_diverges :
    (decompose 1).getD 0 0 = 0 ∧ specDigit 1 0 = 1 ∧
    (decompose 8).getD 1 0 = 0 ∧ specDigit 8 1 = 1 := by decide

/-- C3: the claim says recomposing the assigned digits with the gate
weights returns the value, for every in-range value.  On the code this
fails at `v = 1`: the digits are `[0, 1, 0, ..., 0]` and recompose to 8. -/
theorem claim_c3_roundtrip_fails :
    recompose (decompose 1) = 8 ∧ 1 < RANGE := by decide

/-- C4: the claim says every `v ≥ RANGE` is rejected.  On the code this
fails at `v = 512`: the assigned digits are `[0, 0, 0, 1, 0, 0, 0, 0]`,
every digit is an entry of the table, and the weighted sum is exactly
512, so the gate identity vanishes and the check accepts. -/
theorem claim_c4_out_of_range_accepted :
    check 512 = true ∧ RANGE ≤ 512 := by decide

/-- C5: the gate identity registered under `q_decomposed` is the linear
(degree 1) polynomial `Σ_i digit_i · LOOKUP_RANGE^i − value`, reading the
window cells of column 1 at rotations `0 .. decomposed_parts - 1` and the
value cell of column 0 at the anchor row, and the full gate polynomial is
that identity multiplied by the selector, so it vanishes exactly where
the selector is 0 or the identity holds. -/
theorem claim_c5_gate_shape :
    degree gateIdentity = 1 ∧
    queriedAdvice gateIdentity =
      (List.range decomposed_parts).map (fun i => ((1 : ℕ), (i : ℤ))) ++ [(0, 0)] ∧
    ∀ (F : Type) [CommRing F] (sel : ℕ → F) (a : ℕ → ℤ → F),
      eval sel a decomposeGate =
        sel 0 * ((∑ i ∈ Finset.range decomposed_parts,
          a 1 (i : ℤ) * ((LOOKUP_RANGE ^ i : ℕ) : F)) - a 0 0) := by
  refine ⟨by decide, by decide, ?_⟩
  intro F _ sel a
  have hg : gateIdentity =
      .Sum
        (.Sum (.Sum (.Sum (.Sum (.Sum (.Sum (.Sum
          (.Sum (.Constant 0) (.Product (.Advice 1 0) (.Constant 1)))
          (.Product (.Advice 1 1) (.Constant 8)))
          (.Product (.Advice 1 2) (.Constant 64)))
          (.Product (.Advice 1 3) (.Constant 512)))
          (.Product (.Advice 1 4) (.Constant 4096)))
          (.Product (.Advice 1 5) (.Constant 32768)))
          (.Product (.Advice 1 6) (.Constant 262144)))
          (.Product (.Advice 1 7) (.Constant 2097152)))
        (.Negated (.Advice 0 0)) := by decide
  show eval sel a decomposeGate =
      sel 0 * ((∑ i ∈ Finset.range 8, a 1 (i : ℤ) * ((8 ^ i : ℕ) : F)) - a 0 0)
  rw [decomposeGate, hg]
  simp only [eval, Finset.sum_range_succ, Finset.sum_range_zero]
  push_cast
  ring

/-- C6: the registered lookup input is `q_range_check · digit` (not the
raw digit): it evaluates to the product of the selector and the digit
cell, so wherever the selector is 0 the looked-up value is 0, which is an
entry of the range table (the table holds 0), and wherever the selector
is 1 the looked-up value is exactly the digit cell. -/
theorem claim_c6_lookup_gating :
    (∀ q d : ℤ, lookupInputAt q d = q * d) ∧
    (∀ d : ℤ, lookupInputAt 0 d = 0 ∧ (lookupInputAt 0 d).toNat ∈ rangeTable) ∧
    (0 : ℕ) ∈ rangeTable ∧
    (∀ d : ℤ, lookupInputAt 1 d = d) := by
  refine ⟨fun q d => rfl, fun d => ?_, by decide, fun d => one_mul d⟩
  have h0 : lookupInputAt 0 d = 0 := zero_mul d
  exact ⟨h0, by rw [h0]; decide⟩

/-- C7: for every value `v` (with no range guard anywhere), the witness
assigner runs the same decomposition arithmetic, enables the lookup
selector on rows `0 .. decomposed_parts - 1`, writes exactly the
`decomposed_parts` digit cells, and returns `Ok(true)`: the whole
assignment completes atomically and rejection can only come from the
constraints, never from the assigner. -/
theorem claim_c7_assigner_total_no_guard (v : ℕ) :
    assign_decomposed_values v =
      .ok (List.range decomposed_parts,
        (List.range decomposed_parts).zip ((decompose v).map fFrom), true) := by
  rw [assign_decomposed_values, assignRegionLoop_eq, decompose, List.range_eq_range']

/-- C8: with the constants of the source the configuration succeeds (the
width assertion `NUM_BITS * decomposed_parts < 64` holds, so the check
never fires), and for any window count violating the width precondition
the gate builder surfaces the violation immediately as a fatal
configuration-time error; under the precondition the assertion passes. -/
theorem claim_c8_width_precondition :
    configureGates = .ok (lookupExpr, decomposeGate) ∧
    NUM_BITS * decomposed_parts < 64 ∧
    (∀ parts : ℕ, 0 < parts → 64 ≤ NUM_BITS * parts →
      decomposed_check_asserts parts = .error "Value doesn\x27t fit in bits!") ∧
    (∀ parts : ℕ, 0 < parts → NUM_BITS * parts < 64 →
      decomposed_check_asserts parts = .ok ()) := by
  refine ⟨rfl, by decide, ?_, ?_⟩
  · intro parts h1 h2
    rw [decomposed_check_asserts, if_neg (not_not_intro h1), if_pos (Nat.not_lt.mpr h2)]
  · intro parts h1 h2
    rw [decomposed_check_asserts, if_neg (not_not_intro h1), if_neg (not_not_intro h2)]

/-- C8 witness: at the concrete window counts 22 (width 66 ≥ 64) and 8
(width 24 < 64) the configuration-time assertion errors and passes
respectively. -/
theorem claim_c8_width_precondition_witness :
    decomposed_check_asserts 22 = .error "Value doesn\x27t fit in bits!" ∧
    decomposed_check_asserts 8 = .ok () :=
  ⟨claim_c8_width_precondition.2.2.1 22 (by decide) (by decide),
   claim_c8_width_precondition.2.2.2 8 (by decide) (by decide)⟩

/-- C9: the check is deterministic: two runs on the same value produce
identical cell assignments (both the region writes and the advice
assignment) and the same verdict; the embedding is a pure function of the
value because the source performs no input or randomness beyond `v`. -/
theorem claim_c9_deterministic :
    ∀ v₁ v₂ : ℕ, v₁ = v₂ →
      assign_decomposed_values v₁ = assign_decomposed_values v₂ ∧
      adv v₁ = adv v₂ ∧
      check v₁ = check v₂ := by
  intro v₁ v₂ h
  subst h
  exact ⟨rfl, rfl, rfl⟩

/-- C9 witness: two runs on the concrete value 5 agree. -/
theorem claim_c9_deterministic_witness :
    assign_decomposed_values 5 = assign_decomposed_values 5 ∧
    adv 5 = adv 5 ∧ check 5 = check 5 :=
  claim_c9_deterministic 5 5 rfl

/-- C10: at window 0 the assigner computes the digit as
`v % 2^(0 · NUM_BITS) = v % 1`, so the digit cell at row 0 is always 0,
and the running value passed to window 1 is still the full `v` because
the window-0 right shift is by `0 · NUM_BITS = 0` bits. -/
theorem claim_c10_window_zero (v : ℕ) :
    (decompose v).getD 0 0 = v % 2 ^ (0 * NUM_BITS) ∧
    (decompose v).getD 0 0 = 0 ∧
    decompose v = 0 :: decomposeFrom 1 (decomposed_parts - 1) v ∧
    v >>> (0 * NUM_BITS) = v := by
  have hstep : decompose v = v % 1 :: decomposeFrom 1 7 v := rfl
  have h7 : decomposed_parts - 1 = 7 := rfl
  refine ⟨?_, ?_, ?_, rfl⟩
  · simp [hstep, NUM_BITS]
  · simp [hstep, Nat.mod_one]
  · rw [hstep, h7, Nat.mod_one]

end DecomposeRangeCheck
